import Mathlib

/-!
Verification of the instant-range label/trigger/measurement engine.

This file gives a shallow embedding of the module's core logic:

* `measureDistance` (src/lib/measurement.ts): pure geometry, rounding, formatting;
* `MeasurementCache.getMeasurement` (src/lib/measurement-cache.ts): delta-keyed memoization;
* `LabelRegistry` (src/lib/label-registry.ts): per-token label records with trigger
  bitmasks, `setTrigger`, `clearTriggerFromAllLabels`, `refreshLabel`,
  `refreshAllActiveLabels`, `deleteLabel`;
* the renderer-level bulk refresh (`InstantRangeRenderer.refreshAllActiveLabels`,
  `applyAltHighlight`, `onGatePossiblyChanged`).

Host-supplied behavior (the grid's `measurePath`, `getCenterPoint`, `units`,
viewport visibility, source resolution) is a parameter (`Grid` / `Env`).
JavaScript `Map`s are modeled as association lists with JS `Map.set`/`delete`
semantics (unique keys; in-place replacement); JS numbers are modeled as `ℚ`;
JS 32-bit bitwise negation is modeled on `ℕ` by xor against the low 32 bits.
-/

/-- A 3D point with elevation, as passed to the grid's path measurement. -/
structure Point3D where
  x : ℚ
  y : ℚ
  elevation : ℚ
deriving DecidableEq, Repr

/-- The token data the engine reads: placeable id, document sourceId, preview flag,
center coordinates, document elevation, and occupied grid-space offsets. -/
structure Token where
  id : String
  sourceId : String
  isPreview : Bool
  center : ℚ × ℚ
  elevation : ℚ
  occupiedOffsets : List (Int × Int)
deriving DecidableEq, Repr

/-- The host grid service consumed by the measurement function: gridless flag,
path measurement (returning a distance), unit string, and cell-center lookup. -/
structure Grid where
  isGridless : Bool
  measurePath : Point3D → Point3D → ℚ
  units : String
  getCenterPoint : Int × Int → ℚ × ℚ

/-- Measurement result with formatted text and distance data (measurement.ts). -/
structure MeasurementResult where
  text : String
  distance : ℚ
  sourceElevation : ℚ
  targetElevation : ℚ
deriving DecidableEq, Repr

/-- Internal measurement structure with origin, destination and resulting distance. -/
structure InternalMeasurement where
  origin : Point3D
  dest : Point3D
  result : ℚ
deriving DecidableEq, Repr

/-- Cache entry storing the absolute delta vector and the measurement result. -/
structure CacheEntry where
  dx : ℚ
  dy : ℚ
  dz : ℚ
  measurement : MeasurementResult
deriving DecidableEq, Repr

/-- Label record: the container's visibility flag plus the trigger bitmask. -/
structure LabelRecord where
  visible : Bool
  triggers : Nat
deriving DecidableEq, Repr

/-- Association-list lookup, modeling JS `Map.get`. -/
def lookupA {α : Type} : List (String × α) → String → Option α
  | [], _ => none
  | (k, v) :: rest, key => if k = key then some v else lookupA rest key

/-- Replace the value at a present key in place, modeling mutation of a
record obtained from a JS `Map` (keys of a `Map` are unique). -/
def updateA {α : Type} : List (String × α) → String → (α → α) → List (String × α)
  | [], _, _ => []
  | (k, v) :: rest, key, f =>
    if k = key then (k, f v) :: rest else (k, v) :: updateA rest key f

/-- JS `Map.set`: replace in place if the key is present, else append. -/
def setA {α : Type} : List (String × α) → String → α → List (String × α)
  | [], key, v => [(key, v)]
  | (k, w) :: rest, key, v =>
    if k = key then (key, v) :: rest else (k, w) :: setA rest key v

/-- JS `Map.delete`: drop the binding for a key (keys of a `Map` are unique,
so dropping every matching binding is the same operation). -/
def eraseA {α : Type} (m : List (String × α)) (key : String) : List (String × α) :=
  m.filter (fun p => p.1 ≠ key)

/-- Lexicographic string comparison, modeling the JavaScript `<` operator on
strings (compare code units left to right; a proper prefix is smaller). -/
def lexLt : List Char → List Char → Bool
  | [], [] => false
  | [], _ :: _ => true
  | _ :: _, [] => false
  | a :: as, b :: bs => if a < b then true else if b < a then false else lexLt as bs

/-- JS string comparison on the two tokens' identifier strings. -/
def strLt (a b : String) : Bool := lexLt a.data b.data

/-- Strip one trailing ".preview" from an identifier, modeling the source's
regex replace of an end-anchored ".preview" by the empty string. -/
def stripPreview (s : String) : String :=
  if ".preview".data.isSuffixOf s.data then String.mk (s.data.take (s.data.length - 8)) else s

/-- Bitwise complement restricted to the low 32 bits, modeling the effect of the
JavaScript `~` operator inside a 32-bit bitwise-and context. -/
def not32 (m : Nat) : Nat := (m % 2 ^ 32) ^^^ (2 ^ 32 - 1)

/-- JS Math.round: round half up, as used on distance * 100. -/
def jsRound (q : ℚ) : Int := ⌊q + 1 / 2⌋

/-- The rounded display distance: Math.round(distance * 100) / 100. -/
def round2 (q : ℚ) : ℚ := (jsRound (q * 100) : ℚ) / 100

/-- Decimal rendering of a multiple of 1/100, modeling the JS template-literal
conversion of the rounded distance to a string (shortest decimal form:
no trailing fractional zeros, no fractional part for integers). -/
def fmtRat2 (q : ℚ) : String :=
  let sign := if q < 0 then "-" else ""
  let n := q.num.natAbs * 100 / q.den
  let ip := n / 100
  let fp := n % 100
  sign ++ toString ip ++
    (if fp = 0 then "" else
     if fp % 10 = 0 then "." ++ toString (fp / 10) else
     if fp < 10 then ".0" ++ toString fp else "." ++ toString fp)

/-- Measure distance center-to-center for gridless scenes. -/
def measureCenterToCenter (g : Grid) (sourceToken : Token) (sourceElevation : ℚ)
    (targetToken : Token) (targetElevation : ℚ) : InternalMeasurement :=
  let originPoint : Point3D :=
    ⟨sourceToken.center.1, sourceToken.center.2, sourceElevation⟩
  let destinationPoint : Point3D :=
    ⟨targetToken.center.1, targetToken.center.2, targetElevation⟩
  ⟨originPoint, destinationPoint, g.measurePath originPoint destinationPoint⟩

/-- Center points of all grid spaces occupied by a token; falls back to the
token center when the document reports no occupied offsets. -/
def getOccupiedCenters (g : Grid) (token : Token) (elevation : ℚ) : List Point3D :=
  let tokenCenter : Point3D := ⟨token.center.1, token.center.2, elevation⟩
  if token.occupiedOffsets.isEmpty then [tokenCenter]
  else token.occupiedOffsets.map fun gridOffset =>
    let c := g.getCenterPoint gridOffset
    ⟨c.1, c.2, elevation⟩

/-- The nested source-point × target-point loops of measureNearestOccupiedPoints:
walk the pairs in order, return immediately on a zero distance, otherwise keep
the strictly smallest measurement seen so far. -/
def loopPairs (g : Grid) : List (Point3D × Point3D) → InternalMeasurement → InternalMeasurement
  | [], best => best
  | (sp, tp) :: rest, best =>
    let measuredDistance := g.measurePath sp tp
    if measuredDistance = 0 then ⟨sp, tp, measuredDistance⟩
    else if measuredDistance < best.result then loopPairs g rest ⟨sp, tp, measuredDistance⟩
    else loopPairs g rest best

/-- Measure distance using the nearest occupied grid points for gridded scenes. -/
def measureNearestOccupiedPoints (g : Grid) (sourceToken : Token) (sourceElevation : ℚ)
    (targetToken : Token) (targetElevation : ℚ) : InternalMeasurement :=
  let sourceOccupiedPoints := getOccupiedCenters g sourceToken sourceElevation
  let targetOccupiedPoints := getOccupiedCenters g targetToken targetElevation
  let source0 := sourceOccupiedPoints.headD
    ⟨sourceToken.center.1, sourceToken.center.2, sourceElevation⟩
  let target0 := targetOccupiedPoints.headD
    ⟨targetToken.center.1, targetToken.center.2, targetElevation⟩
  let bestMeasurement : InternalMeasurement :=
    ⟨source0, target0, g.measurePath source0 target0⟩
  if bestMeasurement.result = 0 then bestMeasurement
  else loopPairs g
    (sourceOccupiedPoints.flatMap fun sp => targetOccupiedPoints.map fun tp => (sp, tp))
    bestMeasurement

/-- Measure the distance between two tokens, respecting grid settings and
elevation; formats the text from the rounded distance and the grid units. -/
def measureDistance (g : Grid) (sourceToken targetToken : Token)
    (sourceElevation targetElevation : ℚ) : MeasurementResult :=
  let im :=
    if g.isGridless then
      measureCenterToCenter g sourceToken sourceElevation targetToken targetElevation
    else
      measureNearestOccupiedPoints g sourceToken sourceElevation targetToken targetElevation
  let distance := im.result
  let roundedDistance := round2 distance
  let formattedText := (" " ++ fmtRat2 roundedDistance ++ " " ++ g.units).trim
  ⟨formattedText, distance, sourceElevation, targetElevation⟩

/-- The ordered cache key of MeasurementCache.getMeasurement: the two raw
sourceIds joined by a bar, smaller one (JS string comparison) first. -/
def cacheKey (sourceToken targetToken : Token) : String :=
  let sourceId := sourceToken.sourceId
  let targetId := targetToken.sourceId
  if strLt sourceId targetId then sourceId ++ "|" ++ targetId
  else targetId ++ "|" ++ sourceId

/-- The current absolute x-delta between the two tokens' centers. -/
def deltaX (sourceToken targetToken : Token) : ℚ :=
  |targetToken.center.1 - sourceToken.center.1|

/-- The current absolute y-delta between the two tokens' centers. -/
def deltaY (sourceToken targetToken : Token) : ℚ :=
  |targetToken.center.2 - sourceToken.center.2|

/-- The current absolute elevation delta between the two tokens' documents. -/
def deltaZ (sourceToken targetToken : Token) : ℚ :=
  |targetToken.elevation - sourceToken.elevation|

/-- MeasurementCache.getMeasurement: validate a stored entry by delta-vector
comparison; on a miss, recompute and store. Returns the result and the cache. -/
def getMeasurement (g : Grid) (cache : List (String × CacheEntry))
    (sourceToken targetToken : Token) : MeasurementResult × List (String × CacheEntry) :=
  let sourceElevation := sourceToken.elevation
  let targetElevation := targetToken.elevation
  let key := cacheKey sourceToken targetToken
  let dx := deltaX sourceToken targetToken
  let dy := deltaY sourceToken targetToken
  let dz := deltaZ sourceToken targetToken
  let recompute : MeasurementResult × List (String × CacheEntry) :=
    let measurement :=
      measureDistance g sourceToken targetToken sourceElevation targetElevation
    (measurement, setA cache key ⟨dx, dy, dz, measurement⟩)
  match lookupA cache key with
  | some cachedEntry =>
    if cachedEntry.dx = dx ∧ cachedEntry.dy = dy ∧ cachedEntry.dz = dz then
      (cachedEntry.measurement, cache)
    else recompute
  | none => recompute

/-- MeasurementCache.invalidateToken: drop every entry whose key mentions the
identifier in either slot. -/
def invalidateToken (cache : List (String × CacheEntry)) (tokenSourceId : String) :
    List (String × CacheEntry) :=
  cache.filter fun p =>
    ¬ ((p.1.splitOn "|").headD "" = tokenSourceId ∨
       ((p.1.splitOn "|").drop 1).headD "" = tokenSourceId)

/-- LABEL_TRIGGER.HOVER. -/
def HOVER_TRIGGER : Nat := 1

/-- LABEL_TRIGGER.HIGHLIGHT_OBJECTS. -/
def HIGHLIGHT_OBJECTS_TRIGGER : Nat := 2

/-- LABEL_TRIGGER.TARGET. -/
def TARGET_TRIGGER : Nat := 4

/-- The environment a label refresh reads from the host at call time:
the resolved source token (getSourceToken, preview-substituted), the base
source token (getBaseSourceToken), the gating predicate (isEnabled), the
viewport test, the canvas token list, and the grid. -/
structure Env where
  grid : Grid
  src : Option Token
  baseSource : Option Token
  isEnabled : Bool
  isTokenVisible : Token → Bool
  tokens : List Token

/-- The LabelRegistry state: the label-record map plus the measurement cache
it writes through on successful refreshes. -/
structure RegState where
  labelMap : List (String × LabelRecord)
  cache : List (String × CacheEntry)
deriving DecidableEq

/-- The empty registry (fresh renderer construction). -/
def emptyReg : RegState := ⟨[], []⟩

/-- LabelRegistry.getTriggers: bitmask of active triggers, 0 if no record. -/
def getTriggers (st : RegState) (tokenId : String) : Nat :=
  ((lookupA st.labelMap tokenId).map LabelRecord.triggers).getD 0

/-- LabelRegistry.isLabelVisible: the record exists and its container is visible. -/
def isLabelVisible (st : RegState) (tokenId : String) : Bool :=
  ((lookupA st.labelMap tokenId).map LabelRecord.visible).getD false

/-- LabelRegistry.hasTrigger. -/
def hasTrigger (st : RegState) (tokenId : String) (trigger : Nat) : Bool :=
  getTriggers st tokenId &&& trigger != 0

/-- Whether a record exists for the identifier. -/
def recordExists (st : RegState) (tokenId : String) : Bool :=
  (lookupA st.labelMap tokenId).isSome

/-- The same-token test of refreshLabel: equal placeable ids, or a preview
source over a live target with equal base identities. -/
def isSameToken (src token : Token) : Bool :=
  src.id = token.id ||
    (src.isPreview && !token.isPreview &&
      stripPreview token.sourceId = stripPreview src.sourceId)

/-- LabelRegistry.refreshLabel: recompute visibility for one token.
Hides when there are no triggers, the gate denies, the source is missing,
the source resolves to the same token, or the token is outside the viewport;
otherwise looks up the measurement (through the cache) and shows the label. -/
def refreshLabel (env : Env) (token : Token) (st : RegState) : RegState :=
  match lookupA st.labelMap token.id with
  | none => st
  | some labelRecord =>
    let activeTriggers := labelRecord.triggers
    let hide : RegState :=
      { st with labelMap := updateA st.labelMap token.id fun r => { r with visible := false } }
    match env.src with
    | none => hide
    | some sourceToken =>
      if activeTriggers = 0 ∨ env.isEnabled = false then hide
      else if isSameToken sourceToken token ∨ env.isTokenVisible token = false then hide
      else
        let m := getMeasurement env.grid st.cache sourceToken token
        { labelMap := updateA st.labelMap token.id fun r => { r with visible := true },
          cache := m.2 }

/-- The visibility rule refreshLabel implements: nonzero triggers, gate allows,
a source exists, the source is not the same token, and the token is in view. -/
def visRule (env : Env) (token : Token) (triggers : Nat) : Bool :=
  (triggers != 0) && env.isEnabled &&
    match env.src with
    | none => false
    | some sourceToken => !isSameToken sourceToken token && env.isTokenVisible token

/-- LabelRegistry.setTrigger: no-op on previews; create the record if needed,
set or clear the bit (JS p | t and p & ~t), then optionally refresh. -/
def setTrigger (env : Env) (token : Token) (trigger : Nat) (active : Bool)
    (refresh : Bool) (st : RegState) : RegState :=
  if token.isPreview then st
  else
    let m1 :=
      if (lookupA st.labelMap token.id).isSome then st.labelMap
      else st.labelMap ++ [(token.id, ⟨false, 0⟩)]
    let m2 := updateA m1 token.id fun r =>
      { r with triggers := if active then r.triggers ||| trigger else r.triggers &&& not32 trigger }
    let st1 : RegState := { st with labelMap := m2 }
    if refresh then refreshLabel env token st1 else st1

/-- One iteration of the clearTriggerFromAllLabels loop: skip tokens without a
record or without the bit; otherwise clear the bit and refresh. -/
def clearTriggerStep (env : Env) (trigger : Nat) (st : RegState) (token : Token) : RegState :=
  match lookupA st.labelMap token.id with
  | none => st
  | some labelRecord =>
    if labelRecord.triggers &&& trigger = 0 then st
    else
      refreshLabel env token
        { st with
          labelMap := updateA st.labelMap token.id fun r =>
            { r with triggers := r.triggers &&& not32 trigger } }

/-- LabelRegistry.clearTriggerFromAllLabels: for each canvas token whose record
has the bit set, clear the bit and refresh that label. -/
def clearTriggerFromAllLabels (env : Env) (trigger : Nat) (tokensOnCanvas : List Token)
    (st : RegState) : RegState :=
  tokensOnCanvas.foldl (clearTriggerStep env trigger) st

/-- One iteration of the refreshAllActiveLabels loop: refresh a token that has
a record with at least one trigger. -/
def refreshActiveStep (env : Env) (st : RegState) (token : Token) : RegState :=
  match lookupA st.labelMap token.id with
  | none => st
  | some labelRecord =>
    if labelRecord.triggers = 0 then st else refreshLabel env token st

/-- LabelRegistry.refreshAllActiveLabels: refresh every canvas token whose
record has at least one trigger. -/
def refreshAllActiveLabelsReg (env : Env) (tokensOnCanvas : List Token) (st : RegState) :
    RegState :=
  tokensOnCanvas.foldl (refreshActiveStep env) st

/-- LabelRegistry.deleteLabel: drop the record. -/
def deleteLabel (st : RegState) (tokenId : String) : RegState :=
  { st with labelMap := eraseA st.labelMap tokenId }

/-- Renderer state relevant to the bulk-refresh path. -/
structure RState where
  sourceToken : Option Token
  isShowingAll : Bool
deriving DecidableEq

/-- One iteration of the applyAltHighlight assertion loop: set HIGHLIGHT_OBJECTS
(without refresh) on a token unless it is a preview or the current source. -/
def highlightStep (env : Env) (source : Option Token) (st : RegState) (token : Token) :
    RegState :=
  if token.isPreview then st
  else if (match source with | some s => token.id == s.id | none => false : Bool) then st
  else setTrigger env token HIGHLIGHT_OBJECTS_TRIGGER true false st

/-- InstantRangeRenderer.applyAltHighlight: on activation, re-resolve the base
source, assert HIGHLIGHT_OBJECTS (without refresh) on every non-preview,
non-source token, then bulk-refresh; on deactivation, bulk-clear the bit. -/
def applyAltHighlight (env : Env) (active : Bool) (rst : RState) (st : RegState) :
    RState × RegState :=
  let rst' : RState := { rst with sourceToken := env.baseSource }
  let source := env.baseSource
  if active then
    let st1 := env.tokens.foldl (highlightStep env source) st
    (rst', refreshAllActiveLabelsReg env env.tokens st1)
  else
    (rst', clearTriggerFromAllLabels env HIGHLIGHT_OBJECTS_TRIGGER env.tokens st)

/-- InstantRangeRenderer.refreshAllActiveLabels: re-resolve the base source,
then either re-apply the highlight-all triggers (when showing all) or refresh
every active label. onGatePossiblyChanged delegates here unconditionally. -/
def rendererRefreshAllActiveLabels (env : Env) (rst : RState) (st : RegState) :
    RState × RegState :=
  let newBaseSource := env.baseSource
  let sourceChanged :=
    match rst.sourceToken, newBaseSource with
    | none, _ => true
    | _, none => true
    | some a, some b => a.id ≠ b.id
  let rst1 : RState := if sourceChanged then { rst with sourceToken := newBaseSource } else rst
  if rst1.isShowingAll then applyAltHighlight env true rst1 st
  else (rst1, refreshAllActiveLabelsReg env env.tokens st)

/-- InstantRangeRenderer.onGatePossiblyChanged: hide/show labels without
clearing their triggers, by delegating to the bulk refresh. -/
def onGatePossiblyChanged (env : Env) (rst : RState) (st : RegState) : RState × RegState :=
  rendererRefreshAllActiveLabels env rst st

/-- A gridless demo grid whose path measure is identically zero. -/
def demoGrid : Grid := ⟨true, fun _ _ => 0, "ft", fun _ => (0, 0)⟩

/-- Demo source token. -/
def demoS : Token := ⟨"s", "Token.s", false, (0, 0), 0, []⟩

/-- Demo target token. -/
def demoT : Token := ⟨"t", "Token.t", false, (3, 4), 0, []⟩

/-- Demo environment: gate allows, source resolves to demoS, everything in view. -/
def demoEnv : Env := ⟨demoGrid, some demoS, some demoS, true, fun _ => true, [demoT]⟩

/-- Demo registry: demoT is tracked with HOVER and TARGET both set and visible. -/
def demoSt0 : RegState := ⟨[("t", ⟨true, 5⟩)], []⟩

/-- Demo registry after clearing HOVER on demoT. -/
def demoSt1 : RegState := setTrigger demoEnv demoT HOVER_TRIGGER false true demoSt0

/-- Demo registry after additionally clearing TARGET on demoT. -/
def demoSt2 : RegState := setTrigger demoEnv demoT TARGET_TRIGGER false true demoSt1

/-- The environment for the C2 counterexample: gate denying, no source,
highlight-all engaged, one canvas token with only HOVER set. -/
def cexEnvC2 : Env := ⟨demoGrid, none, none, false, fun _ => true, [demoT]⟩

/-- Renderer state with highlight-all engaged. -/
def cexRstC2 : RState := ⟨none, true⟩

/-- Registry with demoT tracked with only the HOVER bit. -/
def cexStC2 : RegState := ⟨[("t", ⟨false, 1⟩)], []⟩

/-- Well-formed Foundry token identifiers: the sourceId is "Token." plus the
document id, with ".preview" appended for drag-preview placeables (in Foundry
v13 a preview's placeable id equals the base document id), and the base part
does not itself end in ".preview". -/
def wfToken (t : Token) : Prop :=
  t.sourceId = "Token." ++ t.id ++ (if t.isPreview then ".preview" else "") ∧
  ".preview".data.isSuffixOf ("Token." ++ t.id).data = false

/-- A drag-preview of the token with document id "a". -/
def cexSrcPreview : Token := ⟨"a", "Token.a.preview", true, (0, 0), 0, []⟩

/-- The live token with document id "a". -/
def cexLiveA : Token := ⟨"a", "Token.a", false, (5, 5), 0, []⟩

/-- Environment whose resolved source is the drag-preview of token "a". -/
def cexEnvC4 : Env :=
  ⟨demoGrid, some cexSrcPreview, some cexSrcPreview, true, fun _ => true, [cexLiveA]⟩

/-- Registry where the live token "a" is tracked, with a stale visible flag. -/
def cexStC4 : RegState := ⟨[("a", ⟨true, 1⟩)], []⟩

/-- The registry operations of the LabelRegistry surface that create, refresh
or destroy label records. -/
inductive RegOp where
  | set (token : Token) (trigger : Nat) (active refresh : Bool)
  | clearAll (trigger : Nat) (tokensOnCanvas : List Token)
  | refreshOne (token : Token)
  | refreshAll (tokensOnCanvas : List Token)
  | delete (tokenId : String)

/-- Apply one registry operation to the registry state. -/
def applyRegOp (env : Env) (st : RegState) : RegOp → RegState
  | .set token trigger active refresh => setTrigger env token trigger active refresh st
  | .clearAll trigger tokensOnCanvas => clearTriggerFromAllLabels env trigger tokensOnCanvas st
  | .refreshOne token => refreshLabel env token st
  | .refreshAll tokensOnCanvas => refreshAllActiveLabelsReg env tokensOnCanvas st
  | .delete tokenId => deleteLabel st tokenId

/-- Run a sequence of registry operations. -/
def runRegOps (env : Env) (ops : List RegOp) (st : RegState) : RegState :=
  ops.foldl (applyRegOp env) st

/-- One step of the record-existence automaton: a setTrigger call for a
non-preview token with this id makes the record exist (whatever the active
flag), a delete for this id removes it, and every other operation keeps it. -/
def aliveStep (tid : String) (b : Bool) : RegOp → Bool
  | .set token _ _ _ => if token.isPreview = false ∧ token.id = tid then true else b
  | .delete tokenId => if tokenId = tid then false else b
  | _ => b

/-- Whether, after a sequence of operations from an empty registry, a record
for the identifier should exist: some setTrigger touched it (with any active
value) and no later delete removed it. -/
def recordAlive (tid : String) (ops : List RegOp) : Bool :=
  ops.foldl (aliveStep tid) false

/-- A fixed measurement value used to populate demo cache entries. -/
def demoMeasurement : MeasurementResult := ⟨"7 ft", 7, 0, 0⟩

/-- A demo cache holding an entry for the demo pair whose stored deltas equal
the current ones. -/
def demoCache : List (String × CacheEntry) :=
  [(cacheKey demoS demoT,
    ⟨deltaX demoS demoT, deltaY demoS demoT, deltaZ demoS demoT, demoMeasurement⟩)]

/-- A live token distinct from the "a" pair, used as measurement target. -/
def cexTokB : Token := ⟨"b", "Token.b", false, (9, 9), 0, []⟩

/-- Modelled from the spec: the cache key the spec describes, built from the
two tokens' base identifiers with any preview suffix excluded, sorted
lexicographically. (The source builds the key from the raw sourceIds.) -/
def specCacheKey (s t : Token) : String :=
  let a := stripPreview s.sourceId
  let b := stripPreview t.sourceId
  if strLt a b then a ++ "|" ++ b else b ++ "|" ++ a

/-- A gridless grid whose path measure is the constant 1/3, exhibiting an
unrounded measured distance. -/
def gridThird : Grid := ⟨true, fun _ _ => 1 / 3, "ft", fun _ => (0, 0)⟩

/-- The source-point × target-point pairs visited by the gridded measurement,
in loop order. -/
def occupiedPairs (g : Grid) (sourceToken : Token) (sourceElevation : ℚ)
    (targetToken : Token) (targetElevation : ℚ) : List (Point3D × Point3D) :=
  (getOccupiedCenters g sourceToken sourceElevation).flatMap fun sp =>
    (getOccupiedCenters g targetToken targetElevation).map fun tp => (sp, tp)

/-- A gridded demo grid measuring taxicab distance between points. -/
def taxiGrid : Grid :=
  ⟨false, fun p q => |q.x - p.x| + |q.y - p.y| + |q.elevation - p.elevation|, "ft",
   fun off => ((off.2 : ℚ) + 1 / 2, (off.1 : ℚ) + 1 / 2)⟩

/-- A 2×2-footprint token. -/
def bigToken : Token := ⟨"big", "Token.big", false, (1, 1), 0, [(0, 0), (0, 1), (1, 0), (1, 1)]⟩

/-- A 1×1 token a few cells away. -/
def farToken : Token := ⟨"far", "Token.far", false, (9 / 2, 1 / 2), 0, [(0, 4)]⟩

theorem lookupA_updateA_self {α : Type} (m : List (String × α)) (k : String) (f : α → α) :
    lookupA (updateA m k f) k = (lookupA m k).map f := by
  induction m with
  | nil => rfl
  | cons p rest ih =>
    obtain ⟨k', v⟩ := p
    by_cases h : k' = k
    · simp [updateA, lookupA, h]
    · simp [updateA, lookupA, h, ih]

theorem lookupA_updateA_ne {α : Type} (m : List (String × α)) (k k' : String) (f : α → α)
    (h : k' ≠ k) : lookupA (updateA m k f) k' = lookupA m k' := by
  have h' : ¬ k = k' := fun hh => h hh.symm
  induction m with
  | nil => rfl
  | cons p rest ih =>
    obtain ⟨k₀, v⟩ := p
    by_cases h0 : k₀ = k
    · subst h0
      simp [updateA, lookupA, h']
    · by_cases h1 : k₀ = k'
      · simp [updateA, lookupA, h0, h1, h]
      · simp [updateA, lookupA, h0, h1, ih]

theorem lookupA_setA_self {α : Type} (m : List (String × α)) (k : String) (v : α) :
    lookupA (setA m k v) k = some v := by
  induction m with
  | nil => simp [setA, lookupA]
  | cons p rest ih =>
    obtain ⟨k₀, w⟩ := p
    by_cases h : k₀ = k
    · simp [setA, lookupA, h]
    · simp [setA, lookupA, h, ih]

theorem lookupA_setA_ne {α : Type} (m : List (String × α)) (k k' : String) (v : α)
    (h : k' ≠ k) : lookupA (setA m k v) k' = lookupA m k' := by
  have h' : ¬ k = k' := fun hh => h hh.symm
  induction m with
  | nil => simp [setA, lookupA, h']
  | cons p rest ih =>
    obtain ⟨k₀, w⟩ := p
    by_cases h0 : k₀ = k
    · subst h0
      simp [setA, lookupA, h']
    · by_cases h1 : k₀ = k'
      · simp [setA, lookupA, h0, h1, h]
      · simp [setA, lookupA, h0, h1, ih]

theorem lookupA_append {α : Type} (m₁ m₂ : List (String × α)) (k : String) :
    lookupA (m₁ ++ m₂) k = ((lookupA m₁ k).or (lookupA m₂ k)) := by
  induction m₁ with
  | nil => simp [lookupA]
  | cons p rest ih =>
    obtain ⟨k₀, v⟩ := p
    by_cases h : k₀ = k
    · simp [lookupA, h]
    · simp [lookupA, h, ih]

theorem lookupA_eraseA_self {α : Type} (m : List (String × α)) (k : String) :
    lookupA (eraseA m k) k = none := by
  induction m with
  | nil => rfl
  | cons p rest ih =>
    obtain ⟨k₀, v⟩ := p
    by_cases h : k₀ = k
    · simpa [eraseA, h] using ih
    · simpa [eraseA, lookupA, h] using ih

theorem lookupA_eraseA_ne {α : Type} (m : List (String × α)) (k k' : String) (h : k' ≠ k) :
    lookupA (eraseA m k) k' = lookupA m k' := by
  have h' : ¬ k = k' := fun hh => h hh.symm
  induction m with
  | nil => rfl
  | cons p rest ih =>
    obtain ⟨k₀, v⟩ := p
    by_cases h0 : k₀ = k
    · subst h0
      simpa [eraseA, lookupA, h'] using ih
    · by_cases h1 : k₀ = k'
      · simp [eraseA, lookupA, h0, h1, h]
      · simpa [eraseA, lookupA, h0, h1] using ih

theorem lexLt_asymm : ∀ (a b : List Char), lexLt a b = true → lexLt b a = false := by
  intro a
  induction a with
  | nil => intro b h; cases b with
    | nil => simp [lexLt]
    | cons x xs => simp [lexLt]
  | cons x xs ih =>
    intro b h
    cases b with
    | nil => simp [lexLt] at h
    | cons y ys =>
      simp only [lexLt] at h ⊢
      by_cases hxy : x < y
      · simp [hxy, asymm hxy, (lt_asymm hxy : ¬ y < x)]
      · by_cases hyx : y < x
        · simp [hxy, hyx] at h
        · simp only [hxy, hyx, if_false, if_neg] at h ⊢
          simpa [hxy, hyx] using ih ys h

theorem lexLt_total_eq : ∀ (a b : List Char), lexLt a b = false → lexLt b a = false → a = b := by
  intro a
  induction a with
  | nil => intro b h _; cases b with
    | nil => rfl
    | cons y ys => simp [lexLt] at h
  | cons x xs ih =>
    intro b h h'
    cases b with
    | nil => simp [lexLt] at h'
    | cons y ys =>
      simp only [lexLt] at h h'
      by_cases hxy : x < y
      · simp [hxy] at h
      · by_cases hyx : y < x
        · simp [hyx, (lt_asymm hyx : ¬ x < y)] at h'
        · have hx : x = y := le_antisymm (not_lt.mp hyx) (not_lt.mp hxy)
          subst hx
          simp only [lt_irrefl, if_false, if_neg] at h h'
          have := ih ys (by simpa using h) (by simpa using h')
          rw [this]

theorem strLt_asymm (a b : String) (h : strLt a b = true) : strLt b a = false :=
  lexLt_asymm _ _ h

theorem strLt_total_eq (a b : String) (h : strLt a b = false) (h' : strLt b a = false) :
    a = b :=
  String.ext (lexLt_total_eq _ _ h h')

theorem stripPreview_append (x : String) :
    stripPreview (x ++ ".preview") = x := by
  have hd : (x ++ ".preview").data = x.data ++ ".preview".data := String.data_append x _
  have hsuf : ".preview".data.isSuffixOf (x ++ ".preview").data = true := by
    rw [hd]
    simp [List.isSuffixOf, List.suffix_append]
  have hlen : (x ++ ".preview").data.length - 8 = x.data.length := by
    rw [hd, List.length_append]
    rfl
  rw [stripPreview, if_pos hsuf, hlen, hd]
  have : (x.data ++ ".preview".data).take x.data.length = x.data := List.take_left _ _
  rw [this]

theorem stripPreview_no_suffix (s : String)
    (h : ".preview".data.isSuffixOf s.data = false) : stripPreview s = s := by
  rw [stripPreview, if_neg]
  simp [h]

theorem testBit_not32 (m : Nat) (i : Nat) (hi : i < 32) :
    (not32 m).testBit i = ! m.testBit i := by
  rw [not32, Nat.testBit_xor, Nat.testBit_mod_two_pow, Nat.testBit_two_pow_sub_one]
  simp [hi]

theorem testBit_land_not32 (p m : Nat) (i : Nat) (hi : i < 32) (hm : m.testBit i = false) :
    (p &&& not32 m).testBit i = p.testBit i := by
  rw [Nat.testBit_land, testBit_not32 m i hi, hm]
  simp

theorem testBit_lor_of_not (p m : Nat) (i : Nat) (hm : m.testBit i = false) :
    (p ||| m).testBit i = p.testBit i := by
  rw [Nat.testBit_lor, hm]
  simp

theorem refreshLabel_lookup_self (env : Env) (token : Token) (st : RegState) :
    lookupA (refreshLabel env token st).labelMap token.id =
      (lookupA st.labelMap token.id).map
        (fun r => { r with visible := visRule env token r.triggers }) := by
  unfold refreshLabel
  cases hrec : lookupA st.labelMap token.id with
  | none => simp [hrec]
  | some r =>
    cases hsrc : env.src with
    | none =>
      simp only [hsrc, Option.map_some]
      rw [lookupA_updateA_self, hrec]
      simp [visRule, hsrc]
    | some s =>
      by_cases h1 : r.triggers = 0 ∨ env.isEnabled = false
      · simp only [hsrc, if_pos h1]
        rw [lookupA_updateA_self, hrec]
        rcases h1 with h1 | h1
        · simp [visRule, h1]
        · simp [visRule, h1]
      · simp only [hsrc, if_neg h1]
        push_neg at h1
        obtain ⟨ht, he⟩ := h1
        have he' : env.isEnabled = true := by
          cases h : env.isEnabled
          · exact absurd h he
          · rfl
        by_cases h2 : isSameToken s token ∨ env.isTokenVisible token = false
        · simp only [if_pos h2]
          rw [lookupA_updateA_self, hrec]
          rcases h2 with h2 | h2
          · simp [visRule, hsrc, h2]
          · simp [visRule, hsrc, h2]
        · simp only [if_neg h2]
          push_neg at h2
          obtain ⟨hsame, hvis⟩ := h2
          have hvis' : env.isTokenVisible token = true := by
            cases h : env.isTokenVisible token
            · exact absurd h hvis
            · rfl
          have hsame' : isSameToken s token = false := by
            cases h : isSameToken s token
            · rfl
            · exact absurd h hsame
          rw [lookupA_updateA_self, hrec]
          simp [visRule, hsrc, ht, he', hsame', hvis']

theorem refreshLabel_lookup_ne (env : Env) (token : Token) (st : RegState) (id : String)
    (h : id ≠ token.id) :
    lookupA (refreshLabel env token st).labelMap id = lookupA st.labelMap id := by
  unfold refreshLabel
  cases hrec : lookupA st.labelMap token.id with
  | none => rfl
  | some r =>
    cases hsrc : env.src with
    | none => exact lookupA_updateA_ne _ _ _ _ h
    | some s =>
      by_cases h1 : r.triggers = 0 ∨ env.isEnabled = false
      · simp only [if_pos h1]
        exact lookupA_updateA_ne _ _ _ _ h
      · simp only [if_neg h1]
        by_cases h2 : isSameToken s token ∨ env.isTokenVisible token = false
        · simp only [if_pos h2]
          exact lookupA_updateA_ne _ _ _ _ h
        · simp only [if_neg h2]
          exact lookupA_updateA_ne _ _ _ _ h

theorem getTriggers_refreshLabel (env : Env) (token : Token) (st : RegState) (tid : String) :
    getTriggers (refreshLabel env token st) tid = getTriggers st tid := by
  by_cases h : tid = token.id
  · subst h
    unfold getTriggers
    rw [refreshLabel_lookup_self]
    cases hx : lookupA st.labelMap token.id <;> simp [hx]
  · unfold getTriggers
    rw [refreshLabel_lookup_ne env token st tid h]

theorem recordExists_refreshLabel (env : Env) (token : Token) (st : RegState) (tid : String) :
    recordExists (refreshLabel env token st) tid = recordExists st tid := by
  by_cases h : tid = token.id
  · subst h
    unfold recordExists
    rw [refreshLabel_lookup_self]
    cases hx : lookupA st.labelMap token.id <;> simp [hx]
  · unfold recordExists
    rw [refreshLabel_lookup_ne env token st tid h]

theorem isLabelVisible_refreshLabel_self (env : Env) (token : Token) (st : RegState)
    (r : LabelRecord) (hrec : lookupA st.labelMap token.id = some r) :
    isLabelVisible (refreshLabel env token st) token.id = visRule env token r.triggers := by
  rw [isLabelVisible, refreshLabel_lookup_self, hrec]
  rfl

theorem isLabelVisible_refreshLabel_ne (env : Env) (token : Token) (st : RegState)
    (id : String) (h : id ≠ token.id) :
    isLabelVisible (refreshLabel env token st) id = isLabelVisible st id := by
  rw [isLabelVisible, refreshLabel_lookup_ne env token st id h, isLabelVisible]

theorem isLabelVisible_refreshLabel_none (env : Env) (token : Token) (st : RegState)
    (hrec : lookupA st.labelMap token.id = none) :
    isLabelVisible (refreshLabel env token st) token.id = false := by
  rw [isLabelVisible, refreshLabel_lookup_self, hrec]
  rfl

theorem setTrigger_preview (env : Env) (token : Token) (trigger : Nat) (active refresh : Bool)
    (st : RegState) (hp : token.isPreview = true) :
    setTrigger env token trigger active refresh st = st := by
  simp [setTrigger, hp]

theorem setTrigger_lookup_ne (env : Env) (token : Token) (trigger : Nat)
    (active refresh : Bool) (st : RegState) (tid : String) (h : tid ≠ token.id) :
    lookupA (setTrigger env token trigger active refresh st).labelMap tid =
      lookupA st.labelMap tid := by
  unfold setTrigger
  cases hp : token.isPreview with
  | true => rfl
  | false =>
    simp only [Bool.false_eq_true, if_false]
    have hm1 : ∀ m1 : List (String × LabelRecord),
        lookupA m1 tid = lookupA st.labelMap tid →
        lookupA (updateA m1 token.id fun r =>
          { r with triggers := if active then r.triggers ||| trigger
                               else r.triggers &&& not32 trigger }) tid =
          lookupA st.labelMap tid := by
      intro m1 hm
      rw [lookupA_updateA_ne _ _ _ _ h, hm]
    by_cases hc : (lookupA st.labelMap token.id).isSome
    · simp only [hc, if_true]
      by_cases hr : refresh
      · simp only [hr, if_true]
        rw [refreshLabel_lookup_ne _ _ _ _ h]
        exact hm1 _ rfl
      · simp only [hr, if_false]
        exact hm1 _ rfl
    · simp only [hc, if_false]
      have hne : ¬ token.id = tid := fun hh => h hh.symm
      have hm : lookupA (st.labelMap ++ [(token.id, ⟨false, 0⟩)]) tid =
          lookupA st.labelMap tid := by
        rw [lookupA_append]
        have hsingle : lookupA [(token.id, (⟨false, 0⟩ : LabelRecord))] tid = none := by
          simp [lookupA, hne]
        rw [hsingle]
        cases lookupA st.labelMap tid <;> rfl
      by_cases hr : refresh
      · simp only [hr, if_true]
        rw [refreshLabel_lookup_ne _ _ _ _ h]
        exact hm1 _ hm
      · simp only [hr, if_false]
        exact hm1 _ hm

theorem setTrigger_getTriggers_self (env : Env) (token : Token) (trigger : Nat)
    (active refresh : Bool) (st : RegState) (hp : token.isPreview = false) :
    getTriggers (setTrigger env token trigger active refresh st) token.id =
      (if active then getTriggers st token.id ||| trigger
       else getTriggers st token.id &&& not32 trigger) := by
  unfold setTrigger
  simp only [hp, Bool.false_eq_true, if_false]
  have key : ∀ m1 : List (String × LabelRecord),
      (lookupA m1 token.id).map LabelRecord.triggers =
        some (getTriggers st token.id) →
      ∀ st1 : RegState,
        st1.labelMap = updateA m1 token.id (fun r =>
          { r with triggers := if active then r.triggers ||| trigger
                               else r.triggers &&& not32 trigger }) →
      getTriggers st1 token.id =
        (if active then getTriggers st token.id ||| trigger
         else getTriggers st token.id &&& not32 trigger) := by
    intro m1 hm st1 hst1
    unfold getTriggers
    rw [hst1, lookupA_updateA_self]
    cases hx : lookupA m1 token.id with
    | none => rw [hx] at hm; simp at hm
    | some r =>
      rw [hx] at hm
      simp only [Option.map] at hm
      rw [Option.some.injEq] at hm
      show (if active = true then r.triggers ||| trigger else r.triggers &&& not32 trigger) = _
      rw [hm]
      rfl
  by_cases hc : (lookupA st.labelMap token.id).isSome
  · simp only [hc, if_true]
    obtain ⟨r, hr⟩ := Option.isSome_iff_exists.mp hc
    have hm : (lookupA st.labelMap token.id).map LabelRecord.triggers =
        some (getTriggers st token.id) := by
      simp [getTriggers, hr]
    by_cases hrf : refresh
    · simp only [hrf, if_true]
      rw [getTriggers_refreshLabel]
      exact key _ hm _ rfl
    · simp only [hrf, if_false]
      exact key _ hm _ rfl
  · simp only [hc, if_false]
    have hnone : lookupA st.labelMap token.id = none := by
      cases hx : lookupA st.labelMap token.id
      · rfl
      · rw [hx] at hc; simp at hc
    have hm : (lookupA (st.labelMap ++ [(token.id, ⟨false, 0⟩)]) token.id).map
        LabelRecord.triggers = some (getTriggers st token.id) := by
      rw [lookupA_append, hnone]
      simp [lookupA, getTriggers, hnone]
    by_cases hrf : refresh
    · simp only [hrf, if_true]
      rw [getTriggers_refreshLabel]
      exact key _ hm _ rfl
    · simp only [hrf, if_false]
      exact key _ hm _ rfl

theorem setTrigger_getTriggers_ne (env : Env) (token : Token) (trigger : Nat)
    (active refresh : Bool) (st : RegState) (tid : String) (h : tid ≠ token.id) :
    getTriggers (setTrigger env token trigger active refresh st) tid = getTriggers st tid := by
  unfold getTriggers
  rw [setTrigger_lookup_ne env token trigger active refresh st tid h]

theorem recordExists_setTrigger_self (env : Env) (token : Token) (trigger : Nat)
    (active refresh : Bool) (st : RegState) (hp : token.isPreview = false) :
    recordExists (setTrigger env token trigger active refresh st) token.id = true := by
  unfold setTrigger
  simp only [hp, Bool.false_eq_true, if_false]
  have key : ∀ m1 : List (String × LabelRecord), (lookupA m1 token.id).isSome →
      ∀ st1 : RegState,
        st1.labelMap = updateA m1 token.id (fun r =>
          { r with triggers := if active then r.triggers ||| trigger
                               else r.triggers &&& not32 trigger }) →
      recordExists st1 token.id = true := by
    intro m1 hm st1 hst1
    unfold recordExists
    rw [hst1, lookupA_updateA_self]
    cases hx : lookupA m1 token.id with
    | none => rw [hx] at hm; simp at hm
    | some r => simp
  by_cases hc : (lookupA st.labelMap token.id).isSome
  · simp only [hc, if_true]
    by_cases hrf : refresh
    · simp only [hrf, if_true]
      rw [recordExists_refreshLabel]
      exact key _ hc _ rfl
    · simp only [hrf, if_false]
      exact key _ hc _ rfl
  · simp only [hc, if_false]
    have hnone : lookupA st.labelMap token.id = none := by
      cases hx : lookupA st.labelMap token.id
      · rfl
      · rw [hx] at hc; simp at hc
    have hm : (lookupA (st.labelMap ++ [(token.id, ⟨false, 0⟩)]) token.id).isSome := by
      rw [lookupA_append, hnone]
      simp [lookupA]
    by_cases hrf : refresh
    · simp only [hrf, if_true]
      rw [recordExists_refreshLabel]
      exact key _ hm _ rfl
    · simp only [hrf, if_false]
      exact key _ hm _ rfl

theorem recordExists_setTrigger_ne (env : Env) (token : Token) (trigger : Nat)
    (active refresh : Bool) (st : RegState) (tid : String) (h : tid ≠ token.id) :
    recordExists (setTrigger env token trigger active refresh st) tid =
      recordExists st tid := by
  unfold recordExists
  rw [setTrigger_lookup_ne env token trigger active refresh st tid h]

theorem setTrigger_creates_empty_record (env : Env) (token : Token) (trigger : Nat)
    (refresh : Bool) (st : RegState) (hp : token.isPreview = false)
    (habs : lookupA st.labelMap token.id = none) :
    lookupA (setTrigger env token trigger false refresh st).labelMap token.id =
      some ⟨false, 0⟩ := by
  unfold setTrigger
  simp only [hp, Bool.false_eq_true, if_false, habs, Option.isSome_none]
  have hm1 : lookupA (st.labelMap ++ [(token.id, (⟨false, 0⟩ : LabelRecord))]) token.id =
      some ⟨false, 0⟩ := by
    rw [lookupA_append, habs]
    simp [lookupA]
  have hupd : lookupA (updateA (st.labelMap ++ [(token.id, (⟨false, 0⟩ : LabelRecord))])
      token.id (fun r => { r with triggers := r.triggers &&& not32 trigger }))
      token.id = some ⟨false, 0⟩ := by
    rw [lookupA_updateA_self, hm1]
    simp
  by_cases hrf : refresh
  · simp only [hrf, if_true]
    rw [refreshLabel_lookup_self]
    simp only [hupd]
    simp [visRule]
  · simp only [hrf, if_false]
    simpa using hupd

theorem clearTriggerStep_getTriggers_testBit (env : Env) (trigger : Nat) (st : RegState)
    (token : Token) (tid : String) (i : Nat) (hi : i < 32)
    (ht : trigger.testBit i = false) :
    (getTriggers (clearTriggerStep env trigger st token) tid).testBit i =
      (getTriggers st tid).testBit i := by
  unfold clearTriggerStep
  cases hrec : lookupA st.labelMap token.id with
  | none => rfl
  | some r =>
    by_cases hz : r.triggers &&& trigger = 0
    · simp only [hz, if_pos]
    · simp only [hz, if_neg, if_false]
      rw [getTriggers_refreshLabel]
      by_cases heq : tid = token.id
      · subst heq
        unfold getTriggers
        rw [lookupA_updateA_self, hrec]
        simp only [Option.map, Option.getD]
        rw [testBit_land_not32 _ _ _ hi ht]
      · unfold getTriggers
        rw [lookupA_updateA_ne _ _ _ _ heq]

theorem clearTriggerStep_recordExists (env : Env) (trigger : Nat) (st : RegState)
    (token : Token) (tid : String) :
    recordExists (clearTriggerStep env trigger st token) tid = recordExists st tid := by
  unfold clearTriggerStep
  cases hrec : lookupA st.labelMap token.id with
  | none => rfl
  | some r =>
    by_cases hz : r.triggers &&& trigger = 0
    · simp only [hz, if_pos]
    · simp only [hz, if_neg, if_false]
      rw [recordExists_refreshLabel]
      by_cases heq : tid = token.id
      · subst heq
        unfold recordExists
        rw [lookupA_updateA_self, hrec]
        simp
      · unfold recordExists
        rw [lookupA_updateA_ne _ _ _ _ heq]

theorem clearTriggerFromAllLabels_getTriggers_testBit (env : Env) (trigger : Nat) :
    ∀ (tokens : List Token) (st : RegState) (tid : String) (i : Nat), i < 32 →
      trigger.testBit i = false →
      (getTriggers (clearTriggerFromAllLabels env trigger tokens st) tid).testBit i =
        (getTriggers st tid).testBit i := by
  intro tokens
  induction tokens with
  | nil => intro st tid i hi ht; rfl
  | cons tok rest ih =>
    intro st tid i hi ht
    show (getTriggers (clearTriggerFromAllLabels env trigger rest
      (clearTriggerStep env trigger st tok)) tid).testBit i = _
    rw [ih _ tid i hi ht, clearTriggerStep_getTriggers_testBit env trigger st tok tid i hi ht]

theorem clearTriggerFromAllLabels_recordExists (env : Env) (trigger : Nat) :
    ∀ (tokens : List Token) (st : RegState) (tid : String),
      recordExists (clearTriggerFromAllLabels env trigger tokens st) tid =
        recordExists st tid := by
  intro tokens
  induction tokens with
  | nil => intro st tid; rfl
  | cons tok rest ih =>
    intro st tid
    show recordExists (clearTriggerFromAllLabels env trigger rest
      (clearTriggerStep env trigger st tok)) tid = _
    rw [ih _ tid, clearTriggerStep_recordExists]

theorem refreshActiveStep_getTriggers (env : Env) (st : RegState) (token : Token)
    (tid : String) :
    getTriggers (refreshActiveStep env st token) tid = getTriggers st tid := by
  unfold refreshActiveStep
  cases hrec : lookupA st.labelMap token.id with
  | none => rfl
  | some r =>
    by_cases hz : r.triggers = 0
    · simp only [hz, if_pos]
    · simp only [hz, if_neg, if_false]
      exact getTriggers_refreshLabel env token st tid

theorem refreshActiveStep_recordExists (env : Env) (st : RegState) (token : Token)
    (tid : String) :
    recordExists (refreshActiveStep env st token) tid = recordExists st tid := by
  unfold refreshActiveStep
  cases hrec : lookupA st.labelMap token.id with
  | none => rfl
  | some r =>
    by_cases hz : r.triggers = 0
    · simp only [hz, if_pos]
    · simp only [hz, if_neg, if_false]
      exact recordExists_refreshLabel env token st tid

theorem refreshActiveStep_visible_ne (env : Env) (st : RegState) (token : Token)
    (tid : String) (h : tid ≠ token.id) :
    isLabelVisible (refreshActiveStep env st token) tid = isLabelVisible st tid := by
  unfold refreshActiveStep
  cases hrec : lookupA st.labelMap token.id with
  | none => rfl
  | some r =>
    by_cases hz : r.triggers = 0
    · simp only [hz, if_pos]
    · simp only [hz, if_neg, if_false]
      exact isLabelVisible_refreshLabel_ne env token st tid h

theorem refreshActiveStep_visible_self (env : Env) (st : RegState) (token : Token)
    (hnz : getTriggers st token.id ≠ 0) :
    isLabelVisible (refreshActiveStep env st token) token.id =
      visRule env token (getTriggers st token.id) := by
  unfold refreshActiveStep
  cases hrec : lookupA st.labelMap token.id with
  | none =>
    exfalso
    apply hnz
    simp [getTriggers, hrec]
  | some r =>
    have hrt : getTriggers st token.id = r.triggers := by simp [getTriggers, hrec]
    by_cases hz : r.triggers = 0
    · exfalso; apply hnz; rw [hrt, hz]
    · simp only [hz, if_neg, if_false]
      rw [hrt]
      exact isLabelVisible_refreshLabel_self env token st r hrec

theorem refreshActiveStep_zero (env : Env) (st : RegState) (token : Token)
    (hz : getTriggers st token.id = 0) :
    refreshActiveStep env st token = st := by
  unfold refreshActiveStep
  cases hrec : lookupA st.labelMap token.id with
  | none => rfl
  | some r =>
    have hrt : r.triggers = 0 := by
      have := hz
      rw [getTriggers, hrec] at this
      simpa using this
    simp only [hrt, if_pos]

theorem refreshAllActiveLabelsReg_getTriggers (env : Env) :
    ∀ (tokens : List Token) (st : RegState) (tid : String),
      getTriggers (refreshAllActiveLabelsReg env tokens st) tid = getTriggers st tid := by
  intro tokens
  induction tokens with
  | nil => intro st tid; rfl
  | cons tok rest ih =>
    intro st tid
    show getTriggers (refreshAllActiveLabelsReg env rest (refreshActiveStep env st tok)) tid = _
    rw [ih _ tid, refreshActiveStep_getTriggers]

theorem refreshAllActiveLabelsReg_recordExists (env : Env) :
    ∀ (tokens : List Token) (st : RegState) (tid : String),
      recordExists (refreshAllActiveLabelsReg env tokens st) tid = recordExists st tid := by
  intro tokens
  induction tokens with
  | nil => intro st tid; rfl
  | cons tok rest ih =>
    intro st tid
    show recordExists (refreshAllActiveLabelsReg env rest (refreshActiveStep env st tok)) tid = _
    rw [ih _ tid, refreshActiveStep_recordExists]

theorem refreshAllActiveLabelsReg_visible_notMem (env : Env) :
    ∀ (tokens : List Token) (st : RegState) (tid : String),
      tid ∉ tokens.map Token.id →
      isLabelVisible (refreshAllActiveLabelsReg env tokens st) tid = isLabelVisible st tid := by
  intro tokens
  induction tokens with
  | nil => intro st tid _; rfl
  | cons tok rest ih =>
    intro st tid hmem
    have h1 : tid ≠ tok.id := by
      intro hh
      exact hmem (by simp [hh])
    have h2 : tid ∉ rest.map Token.id := by
      intro hh
      exact hmem (by simp [hh])
    show isLabelVisible (refreshAllActiveLabelsReg env rest (refreshActiveStep env st tok)) tid = _
    rw [ih _ tid h2, refreshActiveStep_visible_ne env st tok tid h1]

theorem refreshAllActiveLabelsReg_visible_active (env : Env) :
    ∀ (tokens : List Token) (st : RegState) (token : Token),
      (tokens.map Token.id).Nodup → token ∈ tokens →
      getTriggers st token.id ≠ 0 →
      isLabelVisible (refreshAllActiveLabelsReg env tokens st) token.id =
        visRule env token (getTriggers st token.id) := by
  intro tokens
  induction tokens with
  | nil => intro st token _ hmem; exact absurd hmem (List.not_mem_nil token)
  | cons tok rest ih =>
    intro st token hnodup hmem hnz
    have hnodup' : (rest.map Token.id).Nodup := (List.nodup_cons.mp hnodup).2
    rcases List.mem_cons.mp hmem with heq | hmem'
    · subst heq
      have hnot : token.id ∉ rest.map Token.id := (List.nodup_cons.mp hnodup).1
      show isLabelVisible (refreshAllActiveLabelsReg env rest
        (refreshActiveStep env st token)) token.id = _
      rw [refreshAllActiveLabelsReg_visible_notMem env rest _ token.id hnot]
      exact refreshActiveStep_visible_self env st token hnz
    · show isLabelVisible (refreshAllActiveLabelsReg env rest
        (refreshActiveStep env st tok)) token.id = _
      rw [ih _ token hnodup' hmem'
        (by rw [refreshActiveStep_getTriggers]; exact hnz)]
      rw [refreshActiveStep_getTriggers]

theorem refreshAllActiveLabelsReg_visible_zero (env : Env) :
    ∀ (tokens : List Token) (st : RegState) (token : Token),
      (tokens.map Token.id).Nodup → token ∈ tokens →
      getTriggers st token.id = 0 →
      isLabelVisible (refreshAllActiveLabelsReg env tokens st) token.id =
        isLabelVisible st token.id := by
  intro tokens
  induction tokens with
  | nil => intro st token _ hmem; exact absurd hmem (List.not_mem_nil token)
  | cons tok rest ih =>
    intro st token hnodup hmem hz
    have hnodup' : (rest.map Token.id).Nodup := (List.nodup_cons.mp hnodup).2
    rcases List.mem_cons.mp hmem with heq | hmem'
    · subst heq
      have hnot : token.id ∉ rest.map Token.id := (List.nodup_cons.mp hnodup).1
      show isLabelVisible (refreshAllActiveLabelsReg env rest
        (refreshActiveStep env st token)) token.id = _
      rw [refreshAllActiveLabelsReg_visible_notMem env rest _ token.id hnot,
        refreshActiveStep_zero env st token hz]
    · show isLabelVisible (refreshAllActiveLabelsReg env rest
        (refreshActiveStep env st tok)) token.id = _
      rw [ih _ token hnodup' hmem'
        (by rw [refreshActiveStep_getTriggers]; exact hz)]
      exact refreshActiveStep_visible_ne env st tok token.id
        (by
          intro hh
          have hnot : tok.id ∉ rest.map Token.id := (List.nodup_cons.mp hnodup).1
          exact hnot (by
            rw [← hh]
            exact List.mem_map_of_mem Token.id hmem'))

/-- Claim C1: setting or clearing one trigger bit via setTrigger or
clearTriggerFromAllLabels never changes any other trigger bit of any label
record (bit positions within the 32-bit range of the JS bitwise operators);
in particular, for a token with HOVER and TARGET both set under an allowing
gate with a distinct visible source, clearing HOVER alone leaves the label
visible with TARGET still set, and clearing both triggers hides it. -/
theorem trigger_bit_isolation :
    (∀ (env : Env) (token : Token) (trigger : Nat) (active refresh : Bool) (st : RegState)
       (tid : String) (i : Nat), token.isPreview = false → i < 32 →
       trigger.testBit i = false →
       (getTriggers (setTrigger env token trigger active refresh st) tid).testBit i =
         (getTriggers st tid).testBit i) ∧
    (∀ (env : Env) (trigger : Nat) (tokens : List Token) (st : RegState)
       (tid : String) (i : Nat), i < 32 → trigger.testBit i = false →
       (getTriggers (clearTriggerFromAllLabels env trigger tokens st) tid).testBit i =
         (getTriggers st tid).testBit i) ∧
    (isLabelVisible demoSt1 "t" = true ∧ getTriggers demoSt1 "t" = TARGET_TRIGGER ∧
       isLabelVisible demoSt2 "t" = false) := by
  refine ⟨?_, ?_, ?_, ?_, ?_⟩
  · intro env token trigger active refresh st tid i hp hi ht
    by_cases heq : tid = token.id
    · subst heq
      rw [setTrigger_getTriggers_self env token trigger active refresh st hp]
      by_cases ha : active = true
      · rw [if_pos ha, testBit_lor_of_not _ _ _ ht]
      · rw [if_neg ha, testBit_land_not32 _ _ _ hi ht]
    · rw [setTrigger_getTriggers_ne env token trigger active refresh st tid heq]
  · intro env trigger tokens st tid i hi ht
    exact clearTriggerFromAllLabels_getTriggers_testBit env trigger tokens st tid i hi ht
  · decide
  · decide
  · decide

/-- Witness for C1: clearing TARGET (bit 2) on demoT leaves the HOVER bit
(bit 0) of its record untouched. -/
theorem trigger_bit_isolation_witness :
    demoT.isPreview = false ∧ 0 < 32 ∧ TARGET_TRIGGER.testBit 0 = false ∧
    (getTriggers (setTrigger demoEnv demoT TARGET_TRIGGER false true demoSt0) "t").testBit 0 =
      (getTriggers demoSt0 "t").testBit 0 :=
  ⟨rfl, by decide, by decide,
    trigger_bit_isolation.1 demoEnv demoT TARGET_TRIGGER false true demoSt0 "t" 0
      rfl (by decide) (by decide)⟩

theorem rendererRefresh_snd_of_not_showing (env : Env) (rst : RState) (st : RegState)
    (h : rst.isShowingAll = false) :
    (rendererRefreshAllActiveLabels env rst st).2 =
      refreshAllActiveLabelsReg env env.tokens st := by
  unfold rendererRefreshAllActiveLabels
  by_cases hc : (match rst.sourceToken, env.baseSource with
    | none, _ => true
    | _, none => true
    | some a, some b => decide (a.id ≠ b.id)) = true
  · simp only [hc, if_true, h, Bool.false_eq_true, if_false]
  · simp only [hc, if_false, h, Bool.false_eq_true]

/-- Counterexample to C2 as stated: while "highlight all" is engaged, a gate
re-evaluation (onGatePossiblyChanged) re-asserts HIGHLIGHT_OBJECTS, so a
tracked label whose bitmask was HOVER ends with HOVER|HIGHLIGHT_OBJECTS —
the trigger bitmask is not identical before and after. -/
theorem gate_reeval_changes_triggers_when_showing_all :
    getTriggers (onGatePossiblyChanged cexEnvC2 cexRstC2 cexStC2).2 "t" = 3 ∧
    getTriggers cexStC2 "t" = 1 := by
  constructor
  · decide
  · decide

/-- Claim C2 (amended): provided "highlight all" is not engaged, re-evaluating
the gating predicate via onGatePossiblyChanged changes only label visibility:
every trigger bitmask is identical before and after; every canvas token with a
nonzero bitmask ends exactly as visible as the gate/source/self-exclusion/
viewport rule dictates (so when the gate allows again, exactly those labels
re-show, with no trigger mutation); all other labels keep their visibility.
When "highlight all" is engaged the bulk refresh re-asserts HIGHLIGHT_OBJECTS
and can add trigger bits. -/
theorem gate_reeval_preserves_triggers (env : Env) (rst : RState) (st : RegState)
    (hshow : rst.isShowingAll = false)
    (hnodup : (env.tokens.map Token.id).Nodup) :
    (∀ tid, getTriggers (onGatePossiblyChanged env rst st).2 tid = getTriggers st tid) ∧
    (∀ token ∈ env.tokens, getTriggers st token.id ≠ 0 →
       isLabelVisible (onGatePossiblyChanged env rst st).2 token.id =
         visRule env token (getTriggers st token.id)) ∧
    (∀ token ∈ env.tokens, getTriggers st token.id = 0 →
       isLabelVisible (onGatePossiblyChanged env rst st).2 token.id =
         isLabelVisible st token.id) ∧
    (∀ tid, tid ∉ env.tokens.map Token.id →
       isLabelVisible (onGatePossiblyChanged env rst st).2 tid = isLabelVisible st tid) := by
  have hsnd : (onGatePossiblyChanged env rst st).2 =
      refreshAllActiveLabelsReg env env.tokens st :=
    rendererRefresh_snd_of_not_showing env rst st hshow
  refine ⟨?_, ?_, ?_, ?_⟩
  · intro tid
    rw [hsnd]
    exact refreshAllActiveLabelsReg_getTriggers env env.tokens st tid
  · intro token hmem hnz
    rw [hsnd]
    exact refreshAllActiveLabelsReg_visible_active env env.tokens st token hnodup hmem hnz
  · intro token hmem hz
    rw [hsnd]
    exact refreshAllActiveLabelsReg_visible_zero env env.tokens st token hnodup hmem hz
  · intro tid hmem
    rw [hsnd]
    exact refreshAllActiveLabelsReg_visible_notMem env env.tokens st tid hmem

/-- Witness for C2: in the demo environment (gate allowing, distinct source)
the gate re-evaluation keeps demoT's bitmask and shows its label per the rule. -/
theorem gate_reeval_preserves_triggers_witness :
    (⟨none, false⟩ : RState).isShowingAll = false ∧
    (demoEnv.tokens.map Token.id).Nodup ∧
    getTriggers (onGatePossiblyChanged demoEnv ⟨none, false⟩ demoSt0).2 "t" =
      getTriggers demoSt0 "t" :=
  ⟨rfl, by decide,
    (gate_reeval_preserves_triggers demoEnv ⟨none, false⟩ demoSt0 rfl (by decide)).1 "t"⟩

theorem stripPreview_wf (t : Token) (h : wfToken t) :
    stripPreview t.sourceId = "Token." ++ t.id := by
  obtain ⟨h1, h2⟩ := h
  cases hp : t.isPreview with
  | true =>
    rw [h1, hp, if_pos rfl]
    exact stripPreview_append _
  | false =>
    rw [h1, hp]
    simp only [Bool.false_eq_true, if_false]
    rw [String.append_empty]
    exact stripPreview_no_suffix _ h2

theorem tokenPrefix_inj (a b : String) (h : "Token." ++ a = "Token." ++ b) : a = b := by
  have hd := congrArg String.data h
  simp only [String.data_append] at hd
  exact String.ext (List.append_cancel_left hd)

/-- Claim C4: a label is never visible when the resolved source token and the
target token share the same base identity (identities compared after stripping
the preview suffix) — including live-vs-preview pairs in either direction:
refreshLabel, the only operation that can show a label, always hides it. -/
theorem self_exclusion_never_visible (env : Env) (token src : Token) (st : RegState)
    (hsrc : env.src = some src) (hwf1 : wfToken src) (hwf2 : wfToken token)
    (hbase : stripPreview src.sourceId = stripPreview token.sourceId) :
    isLabelVisible (refreshLabel env token st) token.id = false := by
  have hid : src.id = token.id := by
    have e1 := stripPreview_wf src hwf1
    have e2 := stripPreview_wf token hwf2
    rw [e1, e2] at hbase
    exact tokenPrefix_inj _ _ hbase
  have hsame : isSameToken src token = true := by
    simp [isSameToken, hid]
  cases hrec : lookupA st.labelMap token.id with
  | none => exact isLabelVisible_refreshLabel_none env token st hrec
  | some r =>
    rw [isLabelVisible_refreshLabel_self env token st r hrec]
    simp [visRule, hsrc, hsame]

/-- Witness for C4: with the drag-preview of "a" as source and the live "a" as
target (same base identity), refreshLabel leaves the label hidden. -/
theorem self_exclusion_never_visible_witness :
    cexEnvC4.src = some cexSrcPreview ∧ wfToken cexSrcPreview ∧ wfToken cexLiveA ∧
    stripPreview cexSrcPreview.sourceId = stripPreview cexLiveA.sourceId ∧
    isLabelVisible (refreshLabel cexEnvC4 cexLiveA cexStC4) "a" = false :=
  ⟨rfl, ⟨by decide, by decide⟩, ⟨by decide, by decide⟩, by decide,
    self_exclusion_never_visible cexEnvC4 cexLiveA cexSrcPreview cexStC4 rfl
      ⟨by decide, by decide⟩ ⟨by decide, by decide⟩ (by decide)⟩

theorem recordExists_deleteLabel (st : RegState) (tokenId tid : String) :
    recordExists (deleteLabel st tokenId) tid =
      if tokenId = tid then false else recordExists st tid := by
  by_cases h : tokenId = tid
  · subst h
    rw [if_pos rfl]
    unfold recordExists deleteLabel
    rw [lookupA_eraseA_self]
    rfl
  · rw [if_neg h]
    unfold recordExists deleteLabel
    rw [lookupA_eraseA_ne _ _ _ (fun hh => h hh.symm)]

theorem recordExists_applyRegOp (env : Env) (st : RegState) (op : RegOp) (tid : String) :
    recordExists (applyRegOp env st op) tid = aliveStep tid (recordExists st tid) op := by
  cases op with
  | set token trigger active refresh =>
    show recordExists (setTrigger env token trigger active refresh st) tid =
      if token.isPreview = false ∧ token.id = tid then true else recordExists st tid
    cases hp : token.isPreview with
    | true =>
      rw [setTrigger_preview env token trigger active refresh st hp]
      simp
    | false =>
      by_cases hid : token.id = tid
      · subst hid
        rw [recordExists_setTrigger_self env token trigger active refresh st hp]
        simp [hp]
      · rw [recordExists_setTrigger_ne env token trigger active refresh st tid
          (fun hh => hid hh.symm)]
        simp [hid]
  | clearAll trigger tokensOnCanvas =>
    exact clearTriggerFromAllLabels_recordExists env trigger tokensOnCanvas st tid
  | refreshOne token => exact recordExists_refreshLabel env token st tid
  | refreshAll tokensOnCanvas =>
    exact refreshAllActiveLabelsReg_recordExists env tokensOnCanvas st tid
  | delete tokenId => exact recordExists_deleteLabel st tokenId tid

theorem recordExists_runRegOps (env : Env) (tid : String) :
    ∀ (ops : List RegOp) (st : RegState),
      recordExists (runRegOps env ops st) tid =
        ops.foldl (aliveStep tid) (recordExists st tid) := by
  intro ops
  induction ops with
  | nil => intro st; rfl
  | cons op rest ih =>
    intro st
    show recordExists (runRegOps env rest (applyRegOp env st op)) tid = _
    rw [ih (applyRegOp env st op), recordExists_applyRegOp]
    rfl

/-- Counterexample to C6 as stated: calling setTrigger with active=false on a
non-preview token that has no record does create a record (getOrCreate runs
before the active flag is consulted), so the registry does not stay unchanged. -/
theorem clear_on_recordless_creates_record :
    recordExists (setTrigger demoEnv demoT HOVER_TRIGGER false true emptyReg) "t" = true ∧
    recordExists emptyReg "t" = false := by
  exact ⟨by decide, by decide⟩

/-- Claim C6 (amended): starting from an empty registry, a label record exists
for an identifier iff some setTrigger call touched a non-preview token with
that id (with any active value, not only active=true) and no deleteLabel for
that id came later; in particular, setTrigger with active=false on a
record-less non-preview token creates a fresh record with zero triggers and a
hidden label rather than leaving the registry unchanged. -/
theorem record_exists_iff_touched_not_deleted :
    (∀ (env : Env) (ops : List RegOp) (tid : String),
       recordExists (runRegOps env ops emptyReg) tid = recordAlive tid ops) ∧
    (∀ (env : Env) (st : RegState) (token : Token) (trigger : Nat) (refresh : Bool),
       token.isPreview = false → lookupA st.labelMap token.id = none →
       lookupA (setTrigger env token trigger false refresh st).labelMap token.id =
         some ⟨false, 0⟩) := by
  constructor
  · intro env ops tid
    rw [recordExists_runRegOps env tid ops emptyReg]
    rfl
  · intro env st token trigger refresh hp habs
    exact setTrigger_creates_empty_record env token trigger refresh st hp habs

/-- Witness for C6: clearing HOVER on the record-less demo token creates a
zero-trigger invisible record. -/
theorem record_exists_iff_touched_not_deleted_witness :
    demoT.isPreview = false ∧ lookupA emptyReg.labelMap "t" = none ∧
    lookupA (setTrigger demoEnv demoT HOVER_TRIGGER false true emptyReg).labelMap "t" =
      some ⟨false, 0⟩ :=
  ⟨rfl, rfl,
    record_exists_iff_touched_not_deleted.2 demoEnv emptyReg demoT HOVER_TRIGGER true rfl rfl⟩

/-- Claim C3: with a stored entry under the pair's cache key, getMeasurement
returns the stored measurement unchanged (independently of the measurement
function) when the stored absolute deltas all equal the current ones, and
otherwise recomputes via measureDistance, storing the new deltas and result
under the same key. -/
theorem cache_hit_and_miss (g g' : Grid) (cache : List (String × CacheEntry))
    (s t : Token) (e : CacheEntry)
    (hlook : lookupA cache (cacheKey s t) = some e) :
    ((e.dx = deltaX s t ∧ e.dy = deltaY s t ∧ e.dz = deltaZ s t) →
       getMeasurement g cache s t = (e.measurement, cache) ∧
       getMeasurement g cache s t = getMeasurement g' cache s t) ∧
    (¬ (e.dx = deltaX s t ∧ e.dy = deltaY s t ∧ e.dz = deltaZ s t) →
       getMeasurement g cache s t =
         (measureDistance g s t s.elevation t.elevation,
          setA cache (cacheKey s t)
            ⟨deltaX s t, deltaY s t, deltaZ s t,
             measureDistance g s t s.elevation t.elevation⟩)) := by
  constructor
  · intro h
    constructor
    · simp only [getMeasurement, hlook]
      rw [if_pos h]
    · simp only [getMeasurement, hlook]
      rw [if_pos h, if_pos h]
  · intro h
    simp only [getMeasurement, hlook]
    rw [if_neg h]

/-- Witness for C3: the demo cache entry is returned as-is on a hit. -/
theorem cache_hit_and_miss_witness :
    lookupA demoCache (cacheKey demoS demoT) =
      some ⟨deltaX demoS demoT, deltaY demoS demoT, deltaZ demoS demoT, demoMeasurement⟩ ∧
    getMeasurement demoGrid demoCache demoS demoT = (demoMeasurement, demoCache) :=
  ⟨rfl,
    ((cache_hit_and_miss demoGrid demoGrid demoCache demoS demoT _ rfl).1
      ⟨rfl, rfl, rfl⟩).1⟩

theorem getMeasurement_empty (g : Grid) (s t : Token) :
    getMeasurement g [] s t =
      (measureDistance g s t s.elevation t.elevation,
       [(cacheKey s t,
         ⟨deltaX s t, deltaY s t, deltaZ s t,
          measureDistance g s t s.elevation t.elevation⟩)]) := by
  simp only [getMeasurement, lookupA]
  rfl

/-- Claim C10: when getMeasurement hits the cache, the returned elevations are
the ones captured when the entry was computed, not the tokens' current ones —
after both tokens' elevations change by the same nonzero amount, the second
call returns the original result (stale elevation fields, identical distance
and text). -/
theorem cache_hit_returns_captured_elevations (g : Grid) (s t : Token) (d : ℚ)
    (hd : d ≠ 0) :
    (getMeasurement g (getMeasurement g [] s t).2
        { s with elevation := s.elevation + d }
        { t with elevation := t.elevation + d }).1 =
      (getMeasurement g [] s t).1 ∧
    (getMeasurement g (getMeasurement g [] s t).2
        { s with elevation := s.elevation + d }
        { t with elevation := t.elevation + d }).1.sourceElevation = s.elevation ∧
    (getMeasurement g (getMeasurement g [] s t).2
        { s with elevation := s.elevation + d }
        { t with elevation := t.elevation + d }).1.targetElevation = t.elevation ∧
    (getMeasurement g (getMeasurement g [] s t).2
        { s with elevation := s.elevation + d }
        { t with elevation := t.elevation + d }).1.sourceElevation ≠
      ({ s with elevation := s.elevation + d } : Token).elevation := by
  have hkey : cacheKey { s with elevation := s.elevation + d }
      { t with elevation := t.elevation + d } = cacheKey s t := rfl
  have hdx : deltaX { s with elevation := s.elevation + d }
      { t with elevation := t.elevation + d } = deltaX s t := rfl
  have hdy : deltaY { s with elevation := s.elevation + d }
      { t with elevation := t.elevation + d } = deltaY s t := rfl
  have hdz : deltaZ { s with elevation := s.elevation + d }
      { t with elevation := t.elevation + d } = deltaZ s t := by
    unfold deltaZ
    simp only []
    congr 1
    ring
  have hsecond :
      (getMeasurement g (getMeasurement g [] s t).2
        { s with elevation := s.elevation + d }
        { t with elevation := t.elevation + d }).1 =
      measureDistance g s t s.elevation t.elevation := by
    rw [getMeasurement_empty]
    simp only [getMeasurement, hkey, hdx, hdy, hdz, lookupA, if_pos rfl]
    simp
  refine ⟨?_, ?_, ?_, ?_⟩
  · rw [hsecond, getMeasurement_empty]
  · rw [hsecond]
    rfl
  · rw [hsecond]
    rfl
  · rw [hsecond]
    show s.elevation ≠ s.elevation + d
    intro hh
    apply hd
    linarith

/-- Witness for C10: after raising both demo tokens' elevations by 5, the
cached result still reports the original source elevation. -/
theorem cache_hit_returns_captured_elevations_witness :
    (5 : ℚ) ≠ 0 ∧
    (getMeasurement demoGrid (getMeasurement demoGrid [] demoS demoT).2
        { demoS with elevation := demoS.elevation + 5 }
        { demoT with elevation := demoT.elevation + 5 }).1.sourceElevation =
      demoS.elevation :=
  ⟨by norm_num,
    (cache_hit_returns_captured_elevations demoGrid demoS demoT 5 (by norm_num)).2.1⟩

theorem cacheKey_comm (s t : Token) : cacheKey s t = cacheKey t s := by
  unfold cacheKey
  by_cases h1 : strLt s.sourceId t.sourceId = true
  · rw [if_pos h1, if_neg]
    rw [strLt_asymm _ _ h1]
    simp
  · by_cases h2 : strLt t.sourceId s.sourceId = true
    · rw [if_neg (by simpa using h1), if_pos h2]
    · have heq : t.sourceId = s.sourceId :=
        strLt_total_eq _ _ (by simpa using h2) (by simpa using h1)
      rw [heq]

theorem cacheKey_length (s t : Token) :
    (cacheKey s t).length = s.sourceId.length + t.sourceId.length + 1 := by
  unfold cacheKey
  by_cases h1 : strLt s.sourceId t.sourceId = true
  · rw [if_pos h1, String.length_append, String.length_append]
    have hbar : ("|" : String).length = 1 := rfl
    omega
  · rw [if_neg (by simpa using h1), String.length_append, String.length_append]
    have hbar : ("|" : String).length = 1 := rfl
    omega

/-- Claim C5 (amended): the cache key is order-independent (the smaller raw
sourceId comes first under JS string comparison), but it is built from the
full sourceIds with no preview-suffix stripping, so a drag-preview token and
its live counterpart use different cache entries. -/
theorem cache_key_uses_raw_sourceIds :
    (∀ s t : Token, cacheKey s t = cacheKey t s) ∧
    (∀ s s' t : Token, s.sourceId = s'.sourceId ++ ".preview" →
       cacheKey s t ≠ cacheKey s' t) := by
  constructor
  · exact cacheKey_comm
  · intro s s' t hprev hkey
    have hlen := congrArg String.length hkey
    rw [cacheKey_length, cacheKey_length, hprev, String.length_append] at hlen
    have h8 : (".preview" : String).length = 8 := rfl
    omega

/-- Counterexample to C5 as stated: for a drag-preview source, the key the
code builds differs from the spec's preview-stripped key, and the preview
does not hit the same entry as its live counterpart. -/
theorem cache_key_strips_preview_counterexample :
    cacheKey cexSrcPreview cexTokB ≠ specCacheKey cexSrcPreview cexTokB ∧
    cacheKey cexSrcPreview cexTokB ≠ cacheKey cexLiveA cexTokB := by
  constructor
  · decide
  · decide

/-- Witness for C5 (amended): the preview of "a" and the live "a" produce
different cache keys against the same target. -/
theorem cache_key_uses_raw_sourceIds_witness :
    cexSrcPreview.sourceId = cexLiveA.sourceId ++ ".preview" ∧
    cacheKey cexSrcPreview cexTokB ≠ cacheKey cexLiveA cexTokB :=
  ⟨rfl, cache_key_uses_raw_sourceIds.2 cexSrcPreview cexLiveA cexTokB rfl⟩

/-- Counterexample to C8 as stated: the distance field of the returned
measurement is the raw measured distance, not the two-decimal rounding
(here 1/3 versus 0.33); only the formatted text uses the rounded value. -/
theorem measure_distance_not_rounded :
    (measureDistance gridThird demoS demoT 0 0).distance ≠
      round2 (measureDistance gridThird demoS demoT 0 0).distance := by
  have h : (measureDistance gridThird demoS demoT 0 0).distance = 1 / 3 := by
    simp [measureDistance, measureCenterToCenter, gridThird]
  rw [h, round2, jsRound]
  norm_num

/-- Claim C8 (amended): the formatted text is the decimal rendering of the
two-decimal rounding of the measured distance, followed by a space and the
grid's unit string, whitespace-trimmed; the distance field itself is the raw
(unrounded) measured distance, within 1/200 of the displayed value. -/
theorem measure_distance_text_rounding (g : Grid) (s t : Token) (se te : ℚ) :
    (measureDistance g s t se te).text =
      (" " ++ fmtRat2 (round2 (measureDistance g s t se te).distance) ++ " " ++
        g.units).trim ∧
    |round2 (measureDistance g s t se te).distance -
        (measureDistance g s t se te).distance| ≤ 1 / 200 := by
  constructor
  · rfl
  · set d := (measureDistance g s t se te).distance with hd
    rw [round2, jsRound]
    have h1 : (⌊d * 100 + 1/2⌋ : ℚ) ≤ d * 100 + 1/2 := Int.floor_le _
    have h2 : d * 100 + 1/2 - 1 < (⌊d * 100 + 1/2⌋ : ℚ) := Int.sub_one_lt_floor _
    rw [abs_le]
    constructor <;> linarith

theorem getOccupiedCenters_ne_nil (g : Grid) (token : Token) (elevation : ℚ) :
    getOccupiedCenters g token elevation ≠ [] := by
  unfold getOccupiedCenters
  by_cases h : token.occupiedOffsets.isEmpty
  · simp [h]
  · simp only [h, Bool.false_eq_true, if_false]
    intro hc
    rw [List.map_eq_nil_iff] at hc
    rw [hc] at h
    exact h rfl

theorem loopPairs_result_mem (g : Grid) :
    ∀ (pairs : List (Point3D × Point3D)) (best : InternalMeasurement),
      (loopPairs g pairs best).result = best.result ∨
      ∃ p ∈ pairs, (loopPairs g pairs best).result = g.measurePath p.1 p.2 := by
  intro pairs
  induction pairs with
  | nil => intro best; left; rfl
  | cons hd rest ih =>
    intro best
    obtain ⟨sp, tp⟩ := hd
    by_cases h0 : g.measurePath sp tp = 0
    · right
      refine ⟨(sp, tp), List.mem_cons_self _ _, ?_⟩
      simp only [loopPairs, if_pos h0]
    · by_cases hlt : g.measurePath sp tp < best.result
      · have hred : loopPairs g ((sp, tp) :: rest) best =
            loopPairs g rest ⟨sp, tp, g.measurePath sp tp⟩ := by
          simp only [loopPairs, if_neg h0, if_pos hlt]
        rw [hred]
        rcases ih ⟨sp, tp, g.measurePath sp tp⟩ with h | ⟨p, hp, hres⟩
        · right
          exact ⟨(sp, tp), List.mem_cons_self _ _, h⟩
        · right
          exact ⟨p, List.mem_cons_of_mem _ hp, hres⟩
      · have hred : loopPairs g ((sp, tp) :: rest) best = loopPairs g rest best := by
          simp only [loopPairs, if_neg h0, if_neg hlt]
        rw [hred]
        rcases ih best with h | ⟨p, hp, hres⟩
        · left; exact h
        · right; exact ⟨p, List.mem_cons_of_mem _ hp, hres⟩

theorem loopPairs_result_le (g : Grid) :
    ∀ (pairs : List (Point3D × Point3D)) (best : InternalMeasurement),
      0 ≤ best.result → (∀ p ∈ pairs, 0 ≤ g.measurePath p.1 p.2) →
      (loopPairs g pairs best).result ≤ best.result ∧
      ∀ p ∈ pairs, (loopPairs g pairs best).result ≤ g.measurePath p.1 p.2 := by
  intro pairs
  induction pairs with
  | nil =>
    intro best _ _
    exact ⟨le_refl _, by intro p hp; exact absurd hp (List.not_mem_nil p)⟩
  | cons hd rest ih =>
    intro best hbest hnn
    obtain ⟨sp, tp⟩ := hd
    have hnnrest : ∀ p ∈ rest, 0 ≤ g.measurePath p.1 p.2 := by
      intro p hp
      exact hnn p (List.mem_cons_of_mem _ hp)
    have hnnhd : 0 ≤ g.measurePath sp tp := hnn (sp, tp) (List.mem_cons_self _ _)
    by_cases h0 : g.measurePath sp tp = 0
    · have hred : loopPairs g ((sp, tp) :: rest) best = ⟨sp, tp, g.measurePath sp tp⟩ := by
        simp only [loopPairs, if_pos h0]
      rw [hred]
      constructor
      · show g.measurePath sp tp ≤ best.result
        rw [h0]
        exact hbest
      · intro p hp
        show g.measurePath sp tp ≤ g.measurePath p.1 p.2
        rcases List.mem_cons.mp hp with heq | hmem
        · rw [heq]
        · rw [h0]
          exact hnnrest p hmem
    · by_cases hlt : g.measurePath sp tp < best.result
      · have hred : loopPairs g ((sp, tp) :: rest) best =
            loopPairs g rest ⟨sp, tp, g.measurePath sp tp⟩ := by
          simp only [loopPairs, if_neg h0, if_pos hlt]
        rw [hred]
        obtain ⟨hle, hall⟩ := ih ⟨sp, tp, g.measurePath sp tp⟩ hnnhd hnnrest
        refine ⟨le_of_lt (lt_of_le_of_lt hle hlt), ?_⟩
        intro p hp
        rcases List.mem_cons.mp hp with heq | hmem
        · rw [heq]; exact hle
        · exact hall p hmem
      · have hred : loopPairs g ((sp, tp) :: rest) best = loopPairs g rest best := by
          simp only [loopPairs, if_neg h0, if_neg hlt]
        rw [hred]
        obtain ⟨hle, hall⟩ := ih best hbest hnnrest
        refine ⟨hle, ?_⟩
        intro p hp
        rcases List.mem_cons.mp hp with heq | hmem
        · rw [heq]
          exact le_trans hle (not_lt.mp hlt)
        · exact hall p hmem

theorem loopPairs_result_zero (g : Grid) :
    ∀ (pairs : List (Point3D × Point3D)) (best : InternalMeasurement),
      (∃ p ∈ pairs, g.measurePath p.1 p.2 = 0) →
      (loopPairs g pairs best).result = 0 := by
  intro pairs
  induction pairs with
  | nil =>
    intro best h
    obtain ⟨p, hp, _⟩ := h
    exact absurd hp (List.not_mem_nil p)
  | cons hd rest ih =>
    intro best h
    obtain ⟨sp, tp⟩ := hd
    by_cases h0 : g.measurePath sp tp = 0
    · simp only [loopPairs, if_pos h0]
      exact h0
    · have hrest : ∃ p ∈ rest, g.measurePath p.1 p.2 = 0 := by
        obtain ⟨p, hp, hz⟩ := h
        rcases List.mem_cons.mp hp with heq | hmem
        · rw [heq] at hz; exact absurd hz h0
        · exact ⟨p, hmem, hz⟩
      by_cases hlt : g.measurePath sp tp < best.result
      · simp only [loopPairs, if_neg h0, if_pos hlt]
        exact ih _ hrest
      · simp only [loopPairs, if_neg h0, if_neg hlt]
        exact ih _ hrest

/-- Claim C7: on a gridded scene, the measurement evaluates the path distance
over every pair of occupied-cell centers of the two tokens and returns the
minimum of those distances (host path distances are nonnegative), returning
zero whenever any pair measures zero (the short-circuit case). -/
theorem gridded_min_over_occupied_pairs (g : Grid) (s : Token) (se : ℚ) (t : Token) (te : ℚ)
    (hnn : ∀ p q : Point3D, 0 ≤ g.measurePath p q) :
    ((measureNearestOccupiedPoints g s se t te).result ∈
       (occupiedPairs g s se t te).map (fun pq => g.measurePath pq.1 pq.2)) ∧
    (∀ d ∈ (occupiedPairs g s se t te).map (fun pq => g.measurePath pq.1 pq.2),
       (measureNearestOccupiedPoints g s se t te).result ≤ d) ∧
    ((0 : ℚ) ∈ (occupiedPairs g s se t te).map (fun pq => g.measurePath pq.1 pq.2) →
       (measureNearestOccupiedPoints g s se t te).result = 0) := by
  obtain ⟨a, as, ha⟩ := List.exists_cons_of_ne_nil (getOccupiedCenters_ne_nil g s se)
  obtain ⟨b, bs, hb⟩ := List.exists_cons_of_ne_nil (getOccupiedCenters_ne_nil g t te)
  have hhead : (a, b) ∈ occupiedPairs g s se t te := by
    unfold occupiedPairs
    rw [ha, hb]
    exact List.mem_flatMap.mpr
      ⟨a, List.mem_cons_self _ _, List.mem_map.mpr ⟨b, List.mem_cons_self _ _, rfl⟩⟩
  have hpairs : occupiedPairs g s se t te =
      (a :: as).flatMap fun sp => (b :: bs).map fun tp => (sp, tp) := by
    unfold occupiedPairs
    rw [ha, hb]
  have hdef : measureNearestOccupiedPoints g s se t te =
      if g.measurePath a b = 0 then ⟨a, b, g.measurePath a b⟩
      else loopPairs g ((a :: as).flatMap fun sp => (b :: bs).map fun tp => (sp, tp))
        ⟨a, b, g.measurePath a b⟩ := by
    unfold measureNearestOccupiedPoints
    rw [ha, hb]
    rfl
  have hnnpairs : ∀ p ∈ occupiedPairs g s se t te, 0 ≤ g.measurePath p.1 p.2 := by
    intro p _
    exact hnn p.1 p.2
  by_cases h0 : g.measurePath a b = 0
  · have hres : (measureNearestOccupiedPoints g s se t te).result = g.measurePath a b := by
      rw [hdef, if_pos h0]
    refine ⟨?_, ?_, ?_⟩
    · rw [hres]
      exact List.mem_map_of_mem _ hhead
    · intro d hd
      obtain ⟨p, hp, hpd⟩ := List.mem_map.mp hd
      rw [hres, h0, ← hpd]
      exact hnn p.1 p.2
    · intro _
      rw [hres, h0]
  · have hres : measureNearestOccupiedPoints g s se t te =
        loopPairs g ((a :: as).flatMap fun sp => (b :: bs).map fun tp => (sp, tp))
          ⟨a, b, g.measurePath a b⟩ := by
      rw [hdef, if_neg h0]
    have hnnpairs' : ∀ p ∈ (a :: as).flatMap fun sp => (b :: bs).map fun tp => (sp, tp),
        0 ≤ g.measurePath p.1 p.2 := by
      rw [← hpairs]
      exact hnnpairs
    obtain ⟨hle, hall⟩ :=
      loopPairs_result_le g ((a :: as).flatMap fun sp => (b :: bs).map fun tp => (sp, tp))
        ⟨a, b, g.measurePath a b⟩ (hnn a b) hnnpairs'
    refine ⟨?_, ?_, ?_⟩
    · rcases loopPairs_result_mem g
        ((a :: as).flatMap fun sp => (b :: bs).map fun tp => (sp, tp))
        ⟨a, b, g.measurePath a b⟩ with hm | ⟨p, hp, hm⟩
      · rw [hres, hm]
        exact List.mem_map_of_mem _ hhead
      · rw [hres, hm]
        rw [hpairs]
        exact List.mem_map_of_mem _ hp
    · intro d hd
      obtain ⟨p, hp, hpd⟩ := List.mem_map.mp hd
      rw [hpairs] at hp
      rw [hres, ← hpd]
      exact hall p hp
    · intro hz
      obtain ⟨p, hp, hpz⟩ := List.mem_map.mp hz
      rw [hpairs] at hp
      rw [hres]
      exact loopPairs_result_zero g _ _ ⟨p, hp, hpz⟩

theorem taxiGrid_nonneg : ∀ p q : Point3D, 0 ≤ taxiGrid.measurePath p q := by
  intro p q
  show (0 : ℚ) ≤ |q.x - p.x| + |q.y - p.y| + |q.elevation - p.elevation|
  positivity

/-- Witness for C7: for the 2×2 token against the 1×1 token on the taxicab
grid, the result is a member of the pairwise distances and bounds them below. -/
theorem gridded_min_over_occupied_pairs_witness :
    (∀ p q : Point3D, 0 ≤ taxiGrid.measurePath p q) ∧
    ((measureNearestOccupiedPoints taxiGrid bigToken 0 farToken 0).result ∈
       (occupiedPairs taxiGrid bigToken 0 farToken 0).map
         (fun pq => taxiGrid.measurePath pq.1 pq.2)) ∧
    (∀ d ∈ (occupiedPairs taxiGrid bigToken 0 farToken 0).map
       (fun pq => taxiGrid.measurePath pq.1 pq.2),
       (measureNearestOccupiedPoints taxiGrid bigToken 0 farToken 0).result ≤ d) :=
  ⟨taxiGrid_nonneg,
    (gridded_min_over_occupied_pairs taxiGrid bigToken 0 farToken 0 taxiGrid_nonneg).1,
    (gridded_min_over_occupied_pairs taxiGrid bigToken 0 farToken 0 taxiGrid_nonneg).2.1⟩

theorem mem_pairDists_swap (g : Grid) (s : Token) (se : ℚ) (t : Token) (te : ℚ)
    (hsym : ∀ p q : Point3D, g.measurePath p q = g.measurePath q p) (d : ℚ)
    (hd : d ∈ (occupiedPairs g t te s se).map (fun pq => g.measurePath pq.1 pq.2)) :
    d ∈ (occupiedPairs g s se t te).map (fun pq => g.measurePath pq.1 pq.2) := by
  obtain ⟨p, hp, hpd⟩ := List.mem_map.mp hd
  obtain ⟨x, hx, hpx⟩ := List.mem_flatMap.mp hp
  obtain ⟨y, hy, hxy⟩ := List.mem_map.mp hpx
  apply List.mem_map.mpr
  refine ⟨(y, x), ?_, ?_⟩
  · exact List.mem_flatMap.mpr ⟨y, hy, List.mem_map.mpr ⟨x, hx, rfl⟩⟩
  · show g.measurePath y x = d
    rw [hsym y x]
    rw [← hxy] at hpd
    exact hpd

theorem measureDistance_distance_symm (g : Grid) (A B : Token) (eA eB : ℚ)
    (hsym : ∀ p q : Point3D, g.measurePath p q = g.measurePath q p)
    (hnn : ∀ p q : Point3D, 0 ≤ g.measurePath p q) :
    (measureDistance g A B eA eB).distance = (measureDistance g B A eB eA).distance := by
  unfold measureDistance
  by_cases hg : g.isGridless = true
  · simp only [hg, if_true]
    exact hsym _ _
  · simp only [hg, if_false]
    show (measureNearestOccupiedPoints g A eA B eB).result =
      (measureNearestOccupiedPoints g B eB A eA).result
    obtain ⟨hm1, hl1, _⟩ := gridded_min_over_occupied_pairs g A eA B eB hnn
    obtain ⟨hm2, hl2, _⟩ := gridded_min_over_occupied_pairs g B eB A eA hnn
    apply le_antisymm
    · exact hl1 _ (mem_pairDists_swap g A eA B eB hsym _ hm2)
    · exact hl2 _ (mem_pairDists_swap g B eB A eA hsym _ hm1)

/-- Claim C9: getMeasurement is order-symmetric: the two call orders use the
same cache key and the same delta vector (so they read and write the same
entry), and — the host path measure being a symmetric nonnegative distance —
they return numerically identical distance values. -/
theorem get_measurement_symmetric (g : Grid) (cache : List (String × CacheEntry))
    (A B : Token)
    (hsym : ∀ p q : Point3D, g.measurePath p q = g.measurePath q p)
    (hnn : ∀ p q : Point3D, 0 ≤ g.measurePath p q) :
    cacheKey A B = cacheKey B A ∧ deltaX A B = deltaX B A ∧
    deltaY A B = deltaY B A ∧ deltaZ A B = deltaZ B A ∧
    (getMeasurement g cache A B).1.distance = (getMeasurement g cache B A).1.distance := by
  have hkey := cacheKey_comm A B
  have hdx : deltaX A B = deltaX B A := abs_sub_comm _ _
  have hdy : deltaY A B = deltaY B A := abs_sub_comm _ _
  have hdz : deltaZ A B = deltaZ B A := abs_sub_comm _ _
  have hdist : (measureDistance g A B A.elevation B.elevation).distance =
      (measureDistance g B A B.elevation A.elevation).distance :=
    measureDistance_distance_symm g A B A.elevation B.elevation hsym hnn
  refine ⟨hkey, hdx, hdy, hdz, ?_⟩
  simp only [getMeasurement]
  rw [← hkey, ← hdx, ← hdy, ← hdz]
  cases hlook : lookupA cache (cacheKey A B) with
  | none =>
    simp only [hlook]
    exact hdist
  | some e =>
    simp only [hlook]
    by_cases hcond : e.dx = deltaX A B ∧ e.dy = deltaY A B ∧ e.dz = deltaZ A B
    · rw [if_pos hcond, if_pos hcond]
    · rw [if_neg hcond, if_neg hcond]
      exact hdist

theorem taxiGrid_symm : ∀ p q : Point3D, taxiGrid.measurePath p q = taxiGrid.measurePath q p := by
  intro p q
  show |q.x - p.x| + |q.y - p.y| + |q.elevation - p.elevation| =
    |p.x - q.x| + |p.y - q.y| + |p.elevation - q.elevation|
  rw [abs_sub_comm q.x p.x, abs_sub_comm q.y p.y, abs_sub_comm q.elevation p.elevation]

/-- Witness for C9: on the taxicab grid the two call orders for the demo pair
agree on key, deltas and distance. -/
theorem get_measurement_symmetric_witness :
    (∀ p q : Point3D, taxiGrid.measurePath p q = taxiGrid.measurePath q p) ∧
    cacheKey demoS demoT = cacheKey demoT demoS ∧
    (getMeasurement taxiGrid [] demoS demoT).1.distance =
      (getMeasurement taxiGrid [] demoT demoS).1.distance :=
  ⟨taxiGrid_symm,
    (get_measurement_symmetric taxiGrid [] demoS demoT taxiGrid_symm taxiGrid_nonneg).1,
    (get_measurement_symmetric taxiGrid [] demoS demoT taxiGrid_symm taxiGrid_nonneg).2.2.2.2⟩
